import Mathlib

/-!
Verification of the session auto-titler of the xtra-code repository
(src/session-titler.ts together with src/lib.ts).

Strings are modelled as lists of characters (a JS string is a sequence of
code units); JS String.prototype.trim is modelled by dropping whitespace
characters from both ends, and the one-argument slice of strings and
arrays is modelled by jsListSlice with full JS negative-index semantics.

Timestamps (created, modified, titledAt) are modelled by their parsed
epoch value as an integer, because the code only ever compares them
through new Date(x).getTime().

File-system and network effects are modelled by explicit parameters:
a log map from paths to the parsed message list of the session log, a
title oracle from the prepared conversation text to the optional reply of
the completion endpoint, and the current time.  A fetch outcome datatype
models the HTTP call of generateTitle; rejection of a promise is modelled
by Except.error.
-/

namespace SessionTitler

/-- Character-list strings, the model of JS strings. -/
abbrev Str := List Char

/-- Model of JS String.prototype.trim: remove whitespace from both ends. -/
def jsTrim (s : Str) : Str :=
  ((s.dropWhile Char.isWhitespace).reverse.dropWhile Char.isWhitespace).reverse

/-- JS truthiness of an optional string field: undefined and the empty
string are both falsy, every other string is truthy. -/
def jsStrOptFalsy (o : Option Str) : Bool :=
  match o with
  | none => true
  | some s => s.isEmpty

/-- One-argument slice of JS, for arrays and strings: a nonnegative start
drops that many leading elements, a negative start keeps the last
elements, counted from the end and clamped at the start. -/
def jsListSlice {α : Type} (l : List α) (start : Int) : List α :=
  if start < 0 then l.drop (((l.length : Int) + start).toNat)
  else l.drop start.toNat

/-- One content block of an assistant message (source interface Message,
content array case). -/
structure Block where
  type : Str
  text : Option Str
deriving DecidableEq

/-- The content field of a message body: either a plain string or an
array of content blocks. -/
inductive JsContent where
  | str (s : Str)
  | blocks (bs : List Block)
deriving DecidableEq

/-- The optional message object inside a log record. -/
structure MessageBody where
  role : Option Str
  content : Option JsContent
deriving DecidableEq

/-- One line of the raw session log (source interface Message). -/
structure Message where
  type : Str
  message : Option MessageBody
deriving DecidableEq

/-- One entry of a per-project session index (source interface
SessionIndexEntry from src/lib.ts); timestamps carry their parsed epoch
value.  An absent titledAt models both a missing field and the empty
string, which the code treats identically. -/
structure SessionIndexEntry where
  sessionId : Str
  firstPrompt : Str
  projectPath : Str
  created : Int
  modified : Int
  messageCount : Nat
  fullPath : Str
  customTitle : Option Str
  titledAt : Option Int
deriving DecidableEq

/-- A per-project session index (source interface SessionIndex). -/
structure SessionIndex where
  version : Nat
  entries : List SessionIndexEntry
deriving DecidableEq

/-- The configuration object of the titler; temperature and the home
directory paths are not used by any modelled computation and are
omitted. -/
structure Config where
  qwenUrl : Str
  qwenModel : Str
  maxChars : Nat
  numMessages : Nat
  maxTokens : Nat

/-- The CONFIG constant of the source. -/
def CONFIG : Config :=
  { qwenUrl := "http://localhost:8090/v1/chat/completions".toList
  , qwenModel := "Qwen3-4B-Q4_K_M.gguf".toList
  , maxChars := 4000
  , numMessages := 10
  , maxTokens := 50 }

/-- The message object of the first choice of the endpoint response. -/
structure ChoiceMsg where
  content : Option Str
  reasoning_content : Option Str
deriving DecidableEq

/-- One element of the choices array of the endpoint response. -/
structure Choice where
  message : Option ChoiceMsg
deriving DecidableEq

/-- The parsed JSON body of a successful endpoint response. -/
structure RespData where
  choices : Option (List Choice)
deriving DecidableEq

/-- Outcome of the fetch call of generateTitle: fail models any throw
inside the try block (network failure or an unreadable body), resp models
a received response with its ok flag and parsed body. -/
inductive FetchOutcome where
  | fail
  | resp (ok : Bool) (data : RespData)
deriving DecidableEq

/-- JS or on optional trimmed strings: the left operand wins when it is
truthy (present and nonempty), otherwise the right operand is used. -/
def jsOrStr (a b : Option Str) : Option Str :=
  match a with
  | some s => if s = [] then b else some s
  | none => b

/-- JS coercion x or null at the return of generateTitle: an empty string
becomes null. -/
def jsToNull (a : Option Str) : Option Str :=
  match a with
  | some s => if s = [] then none else some s
  | none => none

/-- Translation of generateTitle: null on a caught throw, null on a
non-ok status, otherwise the trimmed content of the first choice message
with the trimmed reasoning_content as fallback, and null when both are
empty or absent. -/
def generateTitle (r : FetchOutcome) : Option Str :=
  match r with
  | FetchOutcome.fail => none
  | FetchOutcome.resp ok data =>
    if ok then
      jsToNull (jsOrStr
        (((data.choices.bind List.head?).bind Choice.message).bind ChoiceMsg.content |>.map jsTrim)
        (((data.choices.bind List.head?).bind Choice.message).bind ChoiceMsg.reasoning_content |>.map jsTrim))
    else none

/-- Inner loop of the assistant branch of extractConversation: scan the
blocks in order and format the first one of type text whose text is
nonempty after trimming. -/
def firstTextBlockLine : List Block → Option Str
  | [] => none
  | block :: rest =>
    match block.text with
    | some t =>
      if block.type = "text".toList ∧ jsTrim t ≠ []
      then some ("Assistant: ".toList ++ t.take 200)
      else firstTextBlockLine rest
    | none => firstTextBlockLine rest

/-- Per-message emission of extractConversation: the body of one
iteration of its loop, which pushes at most one line. -/
def extractStep (msg : Message) : Option Str :=
  if msg.type = "user".toList then
    match msg.message with
    | some body =>
      match body.content with
      | some (JsContent.str content) =>
        if jsTrim content ≠ [] then some ("User: ".toList ++ content.take 300) else none
      | _ => none
    | none => none
  else if msg.type = "assistant".toList then
    match msg.message with
    | some body =>
      match body.content with
      | some (JsContent.blocks bs) => firstTextBlockLine bs
      | _ => none
    | none => none
  else none

/-- The accumulating loop of extractConversation. -/
def extractGo : List Message → List Str → List Str
  | [], conversation => conversation
  | msg :: rest, conversation => extractGo rest (conversation ++ (extractStep msg).toList)

/-- Translation of extractConversation. -/
def extractConversation (messages : List Message) : List Str :=
  extractGo messages []

/-- The record produced for a log line that fails to parse as JSON. -/
def unknownMessage : Message := { type := "unknown".toList, message := none }

/-- Translation of loadSessionMessages, parameterised by the JSON line
parser and by the optional file content (none models a file whose read
throws).  The content is trimmed, split at newlines, and each line parsed
with the unknown record as fallback. -/
def loadSessionMessages (parseLine : Str → Option Message) (file : Option Str) : List Message :=
  match file with
  | none => []
  | some content =>
    ((jsTrim content).splitOn '\n').map fun line => (parseLine line).getD unknownMessage

/-- Translation of prepareConversationText: keep the slice of the last
numMessages entries, join with newlines, and when the joined text is over
maxChars keep its most recent characters behind a three-dot mark. -/
def prepareConversationText (conversation : List Str) (maxChars numMessages : Nat) : Str :=
  if maxChars < (List.intercalate ['\n'] (jsListSlice conversation (-(numMessages : Int)))).length then
    "...".toList ++
      jsListSlice (List.intercalate ['\n'] (jsListSlice conversation (-(numMessages : Int))))
        (-((maxChars : Int) - 3))
  else List.intercalate ['\n'] (jsListSlice conversation (-(numMessages : Int)))

/-- The sentinel first prompt of degenerate sessions. -/
def noPromptText : Str := "No prompt".toList

/-- Translation of needsRetitling. -/
def needsRetitling (entry : SessionIndexEntry) : Bool :=
  if jsStrOptFalsy entry.customTitle then false
  else
    match entry.titledAt with
    | none => false
    | some titledTime => decide (titledTime < entry.modified)

/-- Translation of shouldProcessSession. -/
def shouldProcessSession (entry : SessionIndexEntry) : Bool :=
  if jsTrim entry.firstPrompt = [] ∨ entry.firstPrompt = noPromptText then false
  else if entry.messageCount < 3 then false
  else if jsStrOptFalsy entry.customTitle then true
  else if needsRetitling entry then true
  else false

/-- Translation of processSession: the optional pair of the produced
title and its timestamp (the updated flag of the source is its
presence).  The oracle maps the prepared conversation text to the
optional title produced by generateTitle. -/
def processSession (logs : Str → List Message) (oracle : Str → Option Str) (now : Int)
    (dryRun : Bool) (entry : SessionIndexEntry) : Option (Str × Int) :=
  if shouldProcessSession entry then
    if extractConversation (logs entry.fullPath) = [] then none
    else if dryRun then none
    else
      match oracle (prepareConversationText (extractConversation (logs entry.fullPath))
          CONFIG.maxChars CONFIG.numMessages) with
      | none => none
      | some title => some (title, now)
  else none

/-- The in-place mutation of one entry inside the loop of
processIndexFile: on a produced title set customTitle and titledAt,
otherwise leave the entry alone. -/
def entryStep (logs : Str → List Message) (oracle : Str → Option Str) (now : Int)
    (dryRun : Bool) (entry : SessionIndexEntry) : SessionIndexEntry :=
  match processSession logs oracle now dryRun entry with
  | some result => { entry with customTitle := some result.1, titledAt := some result.2 }
  | none => entry

/-- Result of processing one parsed index file: the index as it stands
after the loop (the content of the rewrite when one happens), the number
of updated entries, and whether the file write was executed. -/
structure IndexRunResult where
  newIndex : SessionIndex
  updatedCount : Nat
  wrote : Bool
deriving DecidableEq

/-- The body of processIndexFile after the successful parse of the index
file.  Iterating the loop of the source over the filtered candidate list
while mutating entries in place is the same as mapping entryStep over all
entries, because processSession returns null on every non-candidate; the
count counts the entries whose processSession produced a title. -/
def processIndexCore (index : SessionIndex) (logs : Str → List Message)
    (oracle : Str → Option Str) (now : Int) (dryRun : Bool) : IndexRunResult :=
  { newIndex :=
      { version := index.version
      , entries := index.entries.map (entryStep logs oracle now dryRun) }
  , updatedCount :=
      index.entries.countP (fun e => (processSession logs oracle now dryRun e).isSome)
  , wrote :=
      decide (0 < index.entries.countP
        (fun e => (processSession logs oracle now dryRun e).isSome)) && !dryRun }

/-- Translation of processIndexFile.  The read argument is the outcome of
reading and parsing the index file; none models a read or JSON.parse that
throws, and the thrown error propagates as Except.error because the
function has no try block around them. -/
def processIndexFile (read : Option SessionIndex) (logs : Str → List Message)
    (oracle : Str → Option Str) (now : Int) (dryRun : Bool) : Except Unit IndexRunResult :=
  match read with
  | none => Except.error ()
  | some index => Except.ok (processIndexCore index logs oracle now dryRun)

/-- The accumulating loop of runOnce over the discovered index files; an
error thrown by processIndexFile propagates because the loop body is not
guarded by a try block. -/
def runOnceGo (logs : Str → List Message) (oracle : Str → Option Str) (now : Int)
    (dryRun : Bool) : List (Option SessionIndex) → Nat → Except Unit Nat
  | [], total => Except.ok total
  | file :: rest, total =>
    match processIndexFile file logs oracle now dryRun with
    | Except.error e => Except.error e
    | Except.ok r => runOnceGo logs oracle now dryRun rest (total + r.updatedCount)

/-- Translation of runOnce, over the list of discovered index files, each
given by the outcome of reading and parsing it. -/
def runOnce (files : List (Option SessionIndex)) (logs : Str → List Message)
    (oracle : Str → Option Str) (now : Int) (dryRun : Bool) : Except Unit Nat :=
  runOnceGo logs oracle now dryRun files 0

/-! Helper lemmas shared by several claims. -/

/-- The trim of a string is empty exactly when every character is
whitespace (in particular for the empty string). -/
lemma jsTrim_eq_nil_iff (s : Str) : jsTrim s = [] ↔ ∀ ch ∈ s, ch.isWhitespace := by
  unfold jsTrim
  rw [List.reverse_eq_nil_iff, List.dropWhile_eq_nil_iff]
  constructor
  · intro h ch hch
    have hsplit : ch ∈ s.takeWhile Char.isWhitespace ++ s.dropWhile Char.isWhitespace := by
      rw [List.takeWhile_append_dropWhile Char.isWhitespace s]
      exact hch
    rcases List.mem_append.mp hsplit with h1 | h2
    · exact List.mem_takeWhile_imp h1
    · exact h ch (List.mem_reverse.mpr h2)
  · intro h ch hch
    have h2 : ch ∈ s.dropWhile Char.isWhitespace := List.mem_reverse.mp hch
    have h3 : ch ∈ s := by
      rw [← List.takeWhile_append_dropWhile Char.isWhitespace s]
      exact List.mem_append.mpr (Or.inr h2)
    exact h ch h3

/-- JS falsiness of an optional string field, characterised. -/
lemma jsStrOptFalsy_eq_true_iff (o : Option Str) :
    jsStrOptFalsy o = true ↔ o = none ∨ o = some [] := by
  cases o with
  | none => simp [jsStrOptFalsy]
  | some s => cases s <;> simp [jsStrOptFalsy]

/-- Element of a mapped list at a valid position, through getD. -/
lemma getD_map_at {α : Type} (l : List α) (f : α → α) (i : Nat) (d : α)
    (hi : i < l.length) : (l.map f).getD i d = f (l.getD i d) := by
  induction l generalizing i with
  | nil => simp at hi
  | cons a t ih =>
    cases i with
    | zero => simp [List.getD_cons_zero]
    | succ n =>
      simp only [List.map_cons, List.getD_cons_succ]
      exact ih n (by simpa using hi)

/-- Mapping a function that fixes every element is the identity. -/
lemma map_fix_eq_self {α : Type} (l : List α) (f : α → α) (h : ∀ a, f a = a) :
    l.map f = l := by
  induction l with
  | nil => rfl
  | cons a t ih => simp [h, ih]

/-- A default entry, used only as the fallback of getD in statements. -/
def defaultEntry : SessionIndexEntry :=
  { sessionId := [], firstPrompt := [], projectPath := [], created := 0, modified := 0
  , messageCount := 0, fullPath := [], customTitle := none, titledAt := none }

/-! Claim C4: needsRetitling. -/

/-- Counterexample input for C4: customTitle is present but is the empty
string, titledAt is present, and modified is later than titledAt. -/
def cex4entry : SessionIndexEntry :=
  { sessionId := [], firstPrompt := "Hi".toList, projectPath := [], created := 0
  , modified := 1, messageCount := 3, fullPath := [], customTitle := some []
  , titledAt := some 0 }

/-- C4 counterexample: at cex4entry both customTitle and titledAt are
present and modified is strictly later than titledAt, yet needsRetitling
is false, because the code treats an empty-string customTitle like an
absent one (JS falsiness).  The claim as stated predicts true here. -/
theorem needsRetitling_cex :
    cex4entry.customTitle = some [] ∧ cex4entry.titledAt = some 0 ∧
    (0 : Int) < cex4entry.modified ∧ needsRetitling cex4entry = false := by
  refine ⟨rfl, rfl, by decide, by decide⟩

/-- C4 (amended): needsRetitling is false whenever customTitle is absent
or empty, or titledAt is absent; when customTitle is present and nonempty
and titledAt is present, it is true exactly when the modified timestamp
is strictly later than the titledAt timestamp. -/
theorem needsRetitling_amended (e : SessionIndexEntry) :
    ((e.customTitle = none ∨ e.customTitle = some [] ∨ e.titledAt = none) →
      needsRetitling e = false) ∧
    (∀ c t, e.customTitle = some c → c ≠ [] → e.titledAt = some t →
      (needsRetitling e = true ↔ t < e.modified)) := by
  constructor
  · intro h
    unfold needsRetitling
    rcases h with h | h | h
    · simp [jsStrOptFalsy, h]
    · simp [jsStrOptFalsy, h]
    · by_cases hf : jsStrOptFalsy e.customTitle <;> simp [hf, h]
  · intro c t hc hcne ht
    unfold needsRetitling
    have hf : jsStrOptFalsy e.customTitle = false := by
      rw [hc]
      cases c with
      | nil => exact absurd rfl hcne
      | cons a s => rfl
    simp [hf, ht]

/-- Witness entry for the amended C4: a nonempty title, titledAt 3,
modified 5. -/
def w4entry : SessionIndexEntry :=
  { sessionId := [], firstPrompt := "Hi".toList, projectPath := [], created := 0
  , modified := 5, messageCount := 3, fullPath := [], customTitle := some ['T']
  , titledAt := some 3 }

/-- Witness for the amended C4 at w4entry. -/
theorem needsRetitling_amended_witness : needsRetitling w4entry = true := by
  have h := (needsRetitling_amended w4entry).2 ['T'] 3 rfl (by decide) rfl
  exact h.mpr (by decide)

/-! Claim C3: shouldProcessSession. -/

/-- Counterexample input for C3: a valid prompt, messageCount 3, and a
present but empty customTitle with no titledAt. -/
def cex3entry : SessionIndexEntry :=
  { sessionId := [], firstPrompt := "Fix the bug".toList, projectPath := [], created := 0
  , modified := 5, messageCount := 3, fullPath := [], customTitle := some []
  , titledAt := none }

/-- C3 counterexample: at cex3entry the prompt gates pass, customTitle is
present (so not absent) and needsRetitling is false, so the claim as
stated predicts shouldProcessSession to be false; the code returns true,
because an empty-string customTitle is falsy in JS. -/
theorem shouldProcessSession_cex :
    shouldProcessSession cex3entry = true ∧
    cex3entry.customTitle ≠ none ∧
    needsRetitling cex3entry = false ∧
    ¬ (∀ ch ∈ cex3entry.firstPrompt, ch.isWhitespace) ∧
    cex3entry.firstPrompt ≠ noPromptText ∧
    3 ≤ cex3entry.messageCount := by decide

/-- C3 (amended): shouldProcessSession is false when firstPrompt is empty
or whitespace-only or exactly the sentinel, false when messageCount is
below 3 (so 3 qualifies and 2 does not), and otherwise true exactly when
customTitle is absent or empty, or needsRetitling holds. -/
theorem shouldProcessSession_amended (e : SessionIndexEntry) :
    ((∀ ch ∈ e.firstPrompt, ch.isWhitespace) ∨ e.firstPrompt = noPromptText →
      shouldProcessSession e = false) ∧
    (e.messageCount < 3 → shouldProcessSession e = false) ∧
    (¬ (∀ ch ∈ e.firstPrompt, ch.isWhitespace) → e.firstPrompt ≠ noPromptText →
      3 ≤ e.messageCount →
      (shouldProcessSession e = true ↔
        e.customTitle = none ∨ e.customTitle = some [] ∨ needsRetitling e = true)) := by
  refine ⟨?_, ?_, ?_⟩
  · intro h
    unfold shouldProcessSession
    rcases h with h | h
    · rw [if_pos (Or.inl ((jsTrim_eq_nil_iff e.firstPrompt).mpr h))]
    · rw [if_pos (Or.inr h)]
  · intro h
    unfold shouldProcessSession
    by_cases h1 : jsTrim e.firstPrompt = [] ∨ e.firstPrompt = noPromptText
    · rw [if_pos h1]
    · rw [if_neg h1, if_pos h]
  · intro h1 h2 h3
    have hc1 : ¬ (jsTrim e.firstPrompt = [] ∨ e.firstPrompt = noPromptText) := by
      rintro (h | h)
      · exact h1 ((jsTrim_eq_nil_iff e.firstPrompt).mp h)
      · exact h2 h
    have hc2 : ¬ e.messageCount < 3 := by omega
    have hval : shouldProcessSession e = (jsStrOptFalsy e.customTitle || needsRetitling e) := by
      unfold shouldProcessSession
      rw [if_neg hc1, if_neg hc2]
      by_cases hf : jsStrOptFalsy e.customTitle
      · simp [hf]
      · simp only [Bool.not_eq_true] at hf
        by_cases hr : needsRetitling e <;> simp [hf, hr]
    rw [hval]
    simp only [Bool.or_eq_true, jsStrOptFalsy_eq_true_iff]
    tauto

/-- Witness entry for the amended C3: untitled, good prompt, boundary
messageCount 3. -/
def w3entry : SessionIndexEntry :=
  { sessionId := [], firstPrompt := "Refactor the tests".toList, projectPath := []
  , created := 0, modified := 5, messageCount := 3, fullPath := [], customTitle := none
  , titledAt := none }

/-- Witness for the amended C3 at w3entry. -/
theorem shouldProcessSession_amended_witness : shouldProcessSession w3entry = true := by
  have h := (shouldProcessSession_amended w3entry).2.2 (by decide) (by decide) (by decide)
  exact h.mpr (Or.inl rfl)

/-! Claim C9: legacy entries. -/

/-- Counterexample input for C9: customTitle is set (to the empty string)
and titledAt is absent, with a valid prompt and enough messages. -/
def cex9entry : SessionIndexEntry :=
  { sessionId := [], firstPrompt := "Hello world".toList, projectPath := [], created := 0
  , modified := 2, messageCount := 5, fullPath := [], customTitle := some []
  , titledAt := none }

/-- C9 counterexample: cex9entry has customTitle set and titledAt absent,
so the claim as stated predicts shouldProcessSession to be false; the
code returns true, because the empty-string title counts as falsy and the
entry is treated as never titled. -/
theorem legacy_never_retitled_cex :
    cex9entry.customTitle = some [] ∧ cex9entry.titledAt = none ∧
    shouldProcessSession cex9entry = true := by decide

/-- C9 (amended): for every entry whose customTitle is set to a nonempty
string and whose titledAt is absent, shouldProcessSession is false and
processIndexFile leaves the entry unchanged at its position, in live or
dry-run mode. -/
theorem legacy_never_retitled_amended (e : SessionIndexEntry) (c : Str)
    (hc : e.customTitle = some c) (hcne : c ≠ []) (ht : e.titledAt = none) :
    shouldProcessSession e = false ∧
    ∀ (index : SessionIndex) (logs : Str → List Message) (oracle : Str → Option Str)
      (now : Int) (dryRun : Bool) (i : Nat), i < index.entries.length →
      index.entries.getD i defaultEntry = e →
      (processIndexCore index logs oracle now dryRun).newIndex.entries.getD i defaultEntry
        = e := by
  have hf : jsStrOptFalsy e.customTitle = false := by
    rw [hc]
    cases c with
    | nil => exact absurd rfl hcne
    | cons a s => rfl
  have hr : needsRetitling e = false := by
    unfold needsRetitling
    simp [hf, ht]
  have hs : shouldProcessSession e = false := by
    unfold shouldProcessSession
    by_cases h1 : jsTrim e.firstPrompt = [] ∨ e.firstPrompt = noPromptText
    · rw [if_pos h1]
    · rw [if_neg h1]
      by_cases h2 : e.messageCount < 3
      · rw [if_pos h2]
      · rw [if_neg h2]
        simp [hf, hr]
  refine ⟨hs, ?_⟩
  intro index logs oracle now dryRun i hi hgetd
  have hnone : processSession logs oracle now dryRun e = none := by
    unfold processSession
    simp [hs]
  have hstep : entryStep logs oracle now dryRun e = e := by
    unfold entryStep
    rw [hnone]
  show (index.entries.map (entryStep logs oracle now dryRun)).getD i defaultEntry = e
  rw [getD_map_at index.entries (entryStep logs oracle now dryRun) i defaultEntry hi,
    hgetd, hstep]

/-- Witness entry for the amended C9: a legacy entry with a nonempty
title and no titledAt. -/
def w9entry : SessionIndexEntry :=
  { sessionId := [], firstPrompt := "Hello world".toList, projectPath := [], created := 0
  , modified := 9, messageCount := 5, fullPath := [], customTitle := some ("Legacy".toList)
  , titledAt := none }

/-- Witness for the amended C9 at w9entry inside a one-entry index. -/
theorem legacy_never_retitled_amended_witness :
    shouldProcessSession w9entry = false ∧
    (processIndexCore { version := 1, entries := [w9entry] } (fun _ => []) (fun _ => none)
      0 false).newIndex.entries.getD 0 defaultEntry = w9entry := by
  have h := legacy_never_retitled_amended w9entry ("Legacy".toList) rfl (by decide) rfl
  exact ⟨h.1, h.2 { version := 1, entries := [w9entry] } (fun _ => []) (fun _ => none)
    0 false 0 (by decide) rfl⟩

/-! Claim C10: loadSessionMessages on an empty file. -/

/-- C10: an existing but empty log file (content the empty string) yields
the one-element list with the unknown-typed record, while a missing file
yields the empty list, so the two are distinguishable.  The only fact
assumed about the JSON line parser is that the empty line is not valid
JSON. -/
theorem loadSessionMessages_empty_file (parseLine : Str → Option Message)
    (hp : parseLine [] = none) :
    loadSessionMessages parseLine (some []) = [unknownMessage] ∧
    loadSessionMessages parseLine none = [] ∧
    unknownMessage.type = "unknown".toList := by
  refine ⟨?_, rfl, rfl⟩
  show (((jsTrim ([] : Str)).splitOn '\n').map
    fun line => (parseLine line).getD unknownMessage) = [unknownMessage]
  rw [show ((jsTrim ([] : Str)).splitOn '\n') = [[]] from rfl]
  simp [hp]

/-- Witness for C10 with the parser that rejects every line. -/
theorem loadSessionMessages_empty_file_witness :
    loadSessionMessages (fun _ => none) (some []) = [unknownMessage] ∧
    loadSessionMessages (fun _ => none) none = [] ∧
    unknownMessage.type = "unknown".toList :=
  loadSessionMessages_empty_file (fun _ => none) rfl

/-! Claim C5: extractConversation, per-message characterisation. -/

/-- The per-message line of the excerpt as the claim describes it: a user
message with string content nonempty after trimming gives one User line
with the first 300 characters; an assistant message with block-array
content gives at most one Assistant line from the first block of type
text with nonempty trimmed text, truncated to 200 characters; everything
else gives no line. -/
def extractLineSpec (msg : Message) : Option Str :=
  match msg.message.bind MessageBody.content with
  | some (JsContent.str s) =>
    if msg.type = "user".toList ∧ jsTrim s ≠ []
    then some ("User: ".toList ++ s.take 300)
    else none
  | some (JsContent.blocks bs) =>
    if msg.type = "assistant".toList then
      (bs.find? fun b =>
        decide (b.type = "text".toList) && !(jsTrim (b.text.getD [])).isEmpty).map
        (fun b => "Assistant: ".toList ++ (b.text.getD []).take 200)
    else none
  | none => none

/-- The inner block loop returns the formatted first qualifying block. -/
lemma firstTextBlockLine_eq_find (bs : List Block) :
    firstTextBlockLine bs =
      (bs.find? fun b =>
        decide (b.type = "text".toList) && !(jsTrim (b.text.getD [])).isEmpty).map
        (fun b => "Assistant: ".toList ++ (b.text.getD []).take 200) := by
  induction bs with
  | nil => rfl
  | cons b rest ih =>
    obtain ⟨btype, btext⟩ := b
    cases btext with
    | none =>
      have hp : ¬ ((decide (btype = "text".toList)
          && !(jsTrim ((none : Option Str).getD [])).isEmpty) = true) := by
        simp [jsTrim]
      rw [List.find?_cons_of_neg rest hp, ← ih]
      simp [firstTextBlockLine]
    | some t =>
      by_cases h1 : btype = "text".toList
      · by_cases h2 : jsTrim t = []
        · have hp : ¬ ((decide (btype = "text".toList)
              && !(jsTrim ((some t).getD [])).isEmpty) = true) := by
            simp [h1, h2]
          rw [List.find?_cons_of_neg rest hp, ← ih]
          simp [firstTextBlockLine, h2]
        · have hp : (decide (btype = "text".toList)
              && !(jsTrim ((some t).getD [])).isEmpty) = true := by
            simp [h1, h2]
          rw [List.find?_cons_of_pos rest hp]
          simp [firstTextBlockLine, h1, h2]
      · have hp : ¬ ((decide (btype = "text".toList)
            && !(jsTrim ((some t).getD [])).isEmpty) = true) := by
          intro hcontra
          exact h1 (of_decide_eq_true ((Bool.and_eq_true _ _).mp hcontra).1)
        rw [List.find?_cons_of_neg rest hp, ← ih]
        simp [firstTextBlockLine]
        intro ha
        exact absurd ha h1

/-- The accumulating loop of extractConversation is a filterMap. -/
lemma extractGo_eq_filterMap (ms : List Message) :
    ∀ acc, extractGo ms acc = acc ++ ms.filterMap extractStep := by
  induction ms with
  | nil => intro acc; simp [extractGo]
  | cons m rest ih =>
    intro acc
    unfold extractGo
    rw [ih]
    cases h : extractStep m <;> simp [h, List.filterMap_cons]

/-- The loop body agrees with the per-message description. -/
lemma extractStep_eq_spec (m : Message) : extractStep m = extractLineSpec m := by
  obtain ⟨ty, msg⟩ := m
  unfold extractStep extractLineSpec
  cases msg with
  | none =>
    by_cases h1 : ty = "user".toList <;> by_cases h2 : ty = "assistant".toList <;>
      simp_all
  | some body =>
    obtain ⟨role, content⟩ := body
    cases content with
    | none =>
      by_cases h1 : ty = "user".toList <;> by_cases h2 : ty = "assistant".toList <;>
        simp_all
    | some jc =>
      cases jc with
      | str s =>
        by_cases h1 : ty = "user".toList
        · by_cases h3 : jsTrim s = [] <;> simp_all
        · by_cases h2 : ty = "assistant".toList <;> simp_all
      | blocks bs =>
        by_cases h1 : ty = "user".toList
        · have h2 : ¬ ty = "assistant".toList := by
            rw [h1]
            decide
          simp_all
        · by_cases h2 : ty = "assistant".toList <;>
            simp_all [firstTextBlockLine_eq_find]

/-- C5: extractConversation emits, in original message order, exactly the
per-message lines of extractLineSpec: one User line with the first 300
characters for each user message whose string content is nonempty after
trimming, at most one Assistant line with the first 200 characters of the
first qualifying text block for each assistant message with array
content, and nothing for any other message. -/
theorem extractConversation_per_message (messages : List Message) :
    extractConversation messages = messages.filterMap extractLineSpec := by
  rw [extractConversation, extractGo_eq_filterMap, List.nil_append]
  have hfun : extractStep = extractLineSpec := funext extractStep_eq_spec
  rw [hfun]

/-! Claim C6: generateTitle. -/

/-- The trimmed value of an optional string when that trim is nonempty. -/
def trimmedNonempty (o : Option Str) : Option Str :=
  match o with
  | some s => if jsTrim s ≠ [] then some (jsTrim s) else none
  | none => none

/-- The result of generateTitle as the claim describes it: null on a
caught transport failure and on every non-success status; on success the
trimmed content of the first choice message, the trimmed
reasoning_content when the content is empty or absent, and null when both
are. -/
def generateTitleSpec (r : FetchOutcome) : Option Str :=
  match r with
  | FetchOutcome.fail => none
  | FetchOutcome.resp ok data =>
    if ok then
      match (data.choices.bind List.head?).bind Choice.message with
      | none => none
      | some m =>
        match trimmedNonempty m.content with
        | some t => some t
        | none => trimmedNonempty m.reasoning_content
    else none

/-- C6: generateTitle agrees everywhere with the described result: it is
null on every transport failure and every non-success status (it is a
total function, so no exception escapes), and on success it is the
trimmed content of the first choice message, with the trimmed reasoning
field as fallback and null when both are empty or absent. -/
theorem generateTitle_spec (r : FetchOutcome) : generateTitle r = generateTitleSpec r := by
  cases r with
  | fail => rfl
  | resp ok data =>
    cases ok with
    | false => rfl
    | true =>
      unfold generateTitle generateTitleSpec
      cases hm : (data.choices.bind List.head?).bind Choice.message with
      | none => simp [hm, jsOrStr, jsToNull]
      | some m =>
        cases hc : m.content with
        | none =>
          cases hrc : m.reasoning_content with
          | none => simp [hm, hc, hrc, jsOrStr, jsToNull, trimmedNonempty]
          | some rc =>
            by_cases h : jsTrim rc = [] <;>
              simp [hm, hc, hrc, jsOrStr, jsToNull, trimmedNonempty, h]
        | some c =>
          by_cases h1 : jsTrim c = []
          · cases hrc : m.reasoning_content with
            | none => simp [hm, hc, hrc, h1, jsOrStr, jsToNull, trimmedNonempty]
            | some rc =>
              by_cases h2 : jsTrim rc = [] <;>
                simp [hm, hc, hrc, h1, h2, jsOrStr, jsToNull, trimmedNonempty]
          · simp [hm, hc, h1, jsOrStr, jsToNull, trimmedNonempty]

/-! Claim C8: dry-run makes no calls, no mutation, no write. -/

/-- In dry-run mode processSession always returns null: it exits at the
eligibility gate, at the empty excerpt, or at the dry-run gate, always
before the Title Generator is consulted. -/
lemma processSession_dryRun_none (logs : Str → List Message) (oracle : Str → Option Str)
    (now : Int) (e : SessionIndexEntry) :
    processSession logs oracle now true e = none := by
  unfold processSession
  by_cases hs : shouldProcessSession e
  · by_cases hc : extractConversation (logs e.fullPath) = [] <;> simp [hs, hc]
  · simp [hs]

/-- C8: with dryRun true, processIndexFile on every readable index file
returns the index unchanged (no entry customTitle or titledAt is
mutated), an updated count of zero, and no write; the result does not
depend on the oracle, so the Title Generator is never consulted. -/
theorem processIndexFile_dryRun_noop (index : SessionIndex) (logs : Str → List Message)
    (oracle : Str → Option Str) (now : Int) :
    processIndexFile (some index) logs oracle now true =
      Except.ok { newIndex := index, updatedCount := 0, wrote := false } := by
  have hstep : ∀ e, entryStep logs oracle now true e = e := by
    intro e
    unfold entryStep
    rw [processSession_dryRun_none]
  have hcount : index.entries.countP
      (fun e => (processSession logs oracle now true e).isSome) = 0 := by
    rw [List.countP_eq_zero]
    intro a _
    rw [processSession_dryRun_none]
    simp
  have hcore : processIndexCore index logs oracle now true =
      { newIndex := index, updatedCount := 0, wrote := false } := by
    unfold processIndexCore
    rw [map_fix_eq_self index.entries _ hstep, hcount]
    rfl
  show Except.ok (processIndexCore index logs oracle now true) =
    Except.ok { newIndex := index, updatedCount := 0, wrote := false }
  rw [hcore]

/-! Claim C7: live-mode frame condition of processIndexFile. -/

/-- processSession returns null for every entry of the three untouched
categories: not a candidate, empty excerpt, or a null reply of the
oracle. -/
lemma processSession_none_of_category (logs : Str → List Message)
    (oracle : Str → Option Str) (now : Int) (dryRun : Bool) (e : SessionIndexEntry)
    (h : shouldProcessSession e = false ∨
         extractConversation (logs e.fullPath) = [] ∨
         oracle (prepareConversationText (extractConversation (logs e.fullPath))
           CONFIG.maxChars CONFIG.numMessages) = none) :
    processSession logs oracle now dryRun e = none := by
  unfold processSession
  rcases h with h | h | h
  · simp [h]
  · by_cases hs : shouldProcessSession e <;> simp [hs, h]
  · by_cases hs : shouldProcessSession e
    · by_cases hc : extractConversation (logs e.fullPath) = []
      · simp [hs, hc]
      · by_cases hd : dryRun <;> simp [hs, hc, hd, h]
    · simp [hs]

/-- C7: in live mode processIndexFile writes exactly when at least one
entry was updated, preserves the number and positions of the entries, and
every entry of an untouched category (not a candidate, empty excerpt, or
null title from the oracle) is reproduced unchanged; a candidate whose
title generation returned null moreover stays eligible. -/
theorem processIndexFile_live_frame (index : SessionIndex) (logs : Str → List Message)
    (oracle : Str → Option Str) (now : Int) (r : IndexRunResult)
    (hr : processIndexFile (some index) logs oracle now false = Except.ok r) :
    (r.wrote = true ↔ 0 < r.updatedCount) ∧
    r.newIndex.entries.length = index.entries.length ∧
    (∀ i, i < index.entries.length →
      (shouldProcessSession (index.entries.getD i defaultEntry) = false ∨
       extractConversation (logs (index.entries.getD i defaultEntry).fullPath) = [] ∨
       oracle (prepareConversationText
         (extractConversation (logs (index.entries.getD i defaultEntry).fullPath))
         CONFIG.maxChars CONFIG.numMessages) = none) →
      r.newIndex.entries.getD i defaultEntry = index.entries.getD i defaultEntry) ∧
    (∀ i, i < index.entries.length →
      shouldProcessSession (index.entries.getD i defaultEntry) = true →
      oracle (prepareConversationText
        (extractConversation (logs (index.entries.getD i defaultEntry).fullPath))
        CONFIG.maxChars CONFIG.numMessages) = none →
      shouldProcessSession (r.newIndex.entries.getD i defaultEntry) = true) := by
  have hr2 : r = processIndexCore index logs oracle now false := by
    unfold processIndexFile at hr
    exact ((Except.ok.injEq _ _).mp hr).symm
  subst hr2
  refine ⟨?_, ?_, ?_, ?_⟩
  · show (decide (0 < index.entries.countP _) && !false) = true ↔ _
    simp only [Bool.not_false, Bool.and_true, decide_eq_true_eq]
    exact Iff.rfl
  · show (index.entries.map _).length = _
    simp
  · intro i hi hcat
    have hnone := processSession_none_of_category logs oracle now false _ hcat
    show (index.entries.map (entryStep logs oracle now false)).getD i defaultEntry = _
    rw [getD_map_at index.entries (entryStep logs oracle now false) i defaultEntry hi]
    unfold entryStep
    rw [hnone]
  · intro i hi hs ho
    have hnone := processSession_none_of_category logs oracle now false _
      (Or.inr (Or.inr ho))
    show shouldProcessSession
      ((index.entries.map (entryStep logs oracle now false)).getD i defaultEntry) = true
    rw [getD_map_at index.entries (entryStep logs oracle now false) i defaultEntry hi]
    unfold entryStep
    rw [hnone]
    exact hs

/-- Witness entry for C7: too few messages, so not a candidate. -/
def w7entry : SessionIndexEntry :=
  { sessionId := [], firstPrompt := "Hi there".toList, projectPath := [], created := 0
  , modified := 0, messageCount := 1, fullPath := [], customTitle := none
  , titledAt := none }

/-- Witness index for C7. -/
def w7index : SessionIndex := { version := 1, entries := [w7entry] }

/-- Witness for C7: the single non-candidate entry of w7index is
reproduced unchanged by a live run. -/
theorem processIndexFile_live_frame_witness :
    (processIndexCore w7index (fun _ => []) (fun _ => none) 0 false).newIndex.entries.getD
        0 defaultEntry =
      w7index.entries.getD 0 defaultEntry := by
  have h := processIndexFile_live_frame w7index (fun _ => []) (fun _ => none) 0
    (processIndexCore w7index (fun _ => []) (fun _ => none) 0 false) rfl
  exact h.2.2.1 0 (by decide) (Or.inl (by decide))

/-! Claim C1: failure handling of runOnce across index files. -/

/-- Index used by the C1 counterexample: an empty, perfectly healthy
index file. -/
def cex1index : SessionIndex := { version := 1, entries := [] }

/-- C1 counterexample: with a first index file whose read or JSON parse
throws and a second, healthy one, runOnce aborts with the propagated
error instead of completing, even though the second file on its own
processes fine; the claim as stated predicts a completed run over the
remaining files. -/
theorem runOnce_abort_cex :
    runOnce [none, some cex1index] (fun _ => []) (fun _ => none) 0 false =
      Except.error () ∧
    processIndexFile (some cex1index) (fun _ => []) (fun _ => none) 0 false =
      Except.ok { newIndex := cex1index, updatedCount := 0, wrote := false } := by
  exact ⟨rfl, rfl⟩

/-- The loop of runOnce, characterised: it completes with the accumulated
total only when every file read and parse succeeds, and otherwise
propagates the first error. -/
lemma runOnceGo_spec (logs : Str → List Message) (oracle : Str → Option Str) (now : Int)
    (dryRun : Bool) :
    ∀ (files : List (Option SessionIndex)) (total : Nat),
    runOnceGo logs oracle now dryRun files total =
      if files.all Option.isSome then
        Except.ok (total + ((files.filterMap id).map
          (fun idx => (processIndexCore idx logs oracle now dryRun).updatedCount)).sum)
      else Except.error () := by
  intro files
  induction files with
  | nil => intro total; simp [runOnceGo]
  | cons f rest ih =>
    intro total
    cases f with
    | none => simp [runOnceGo, processIndexFile]
    | some idx =>
      simp only [runOnceGo, processIndexFile]
      rw [ih]
      simp only [List.all_cons, Option.isSome_some, Bool.true_and, List.filterMap_cons,
        id, List.map_cons, List.sum_cons]
      split
      · rw [Nat.add_assoc]
      · rfl

/-- C1 (amended): a failure reading or parsing any discovered index file
aborts runOnce — the error propagates and the run does not complete, so
files after the failing one are not processed; only when every discovered
index file reads and parses successfully does the run complete, with the
total accumulated over all files. -/
theorem runOnce_amended (files : List (Option SessionIndex)) (logs : Str → List Message)
    (oracle : Str → Option Str) (now : Int) (dryRun : Bool) :
    runOnce files logs oracle now dryRun =
      if files.all Option.isSome then
        Except.ok (((files.filterMap id).map
          (fun idx => (processIndexCore idx logs oracle now dryRun).updatedCount)).sum)
      else Except.error () := by
  unfold runOnce
  rw [runOnceGo_spec]
  simp

/-! Claim C2: prepareConversationText. -/

/-- C2 counterexample, refuting the claim at two inputs.  With
numMessages zero the claim predicts the join of the last zero entries,
the empty string, but JS slice with argument negative zero keeps the
whole list, so the code returns the full join.  With maxChars 3 and a
joined length of 4 the claim predicts a result of length exactly 3, but
the code appends the whole string after the dots and returns 7
characters. -/
theorem prepareConversationText_cex :
    prepareConversationText [['a'], ['b']] 10 0 = ['a', '\n', 'b'] ∧
    (prepareConversationText [['a', 'b', 'c', 'd']] 3 1).length = 7 := by
  exact ⟨rfl, rfl⟩

/-- C2 (amended): for every positive numMessages, the result equals the
join of the last numMessages (at most) entries when that join does not
exceed maxChars; when the join exceeds maxChars and maxChars is at least
4, the result has length exactly maxChars, starts with three dots, and
ends with the most recent maxChars minus 3 characters of the untruncated
join. -/
theorem prepareConversationText_amended (c : List Str) (maxChars numMessages : Nat)
    (hn : 1 ≤ numMessages) (joined : Str)
    (hj : joined = List.intercalate ['\n'] (c.drop (c.length - numMessages))) :
    (joined.length ≤ maxChars → prepareConversationText c maxChars numMessages = joined) ∧
    (maxChars < joined.length → 4 ≤ maxChars →
      (prepareConversationText c maxChars numMessages).length = maxChars ∧
      (prepareConversationText c maxChars numMessages).take 3 = "...".toList ∧
      (prepareConversationText c maxChars numMessages).drop 3 =
        joined.drop (joined.length - (maxChars - 3))) := by
  have hrecent : jsListSlice c (-(numMessages : Int)) = c.drop (c.length - numMessages) := by
    unfold jsListSlice
    rw [if_pos (by omega : -(numMessages : Int) < 0)]
    congr 1
    omega
  constructor
  · intro hle
    unfold prepareConversationText
    rw [hrecent, ← hj, if_neg (by omega)]
  · intro hlt h4
    have hslice : jsListSlice joined (-((maxChars : Int) - 3)) =
        joined.drop (joined.length - (maxChars - 3)) := by
      unfold jsListSlice
      rw [if_pos (by omega : -((maxChars : Int) - 3) < 0)]
      congr 1
      omega
    have hprep : prepareConversationText c maxChars numMessages =
        "...".toList ++ joined.drop (joined.length - (maxChars - 3)) := by
      unfold prepareConversationText
      rw [hrecent, ← hj, if_pos (by omega : maxChars < joined.length), hslice]
    refine ⟨?_, ?_, ?_⟩
    · rw [hprep, List.length_append, List.length_drop,
        (by rfl : ("...".toList : Str).length = 3)]
      omega
    · rw [hprep]
      rfl
    · rw [hprep]
      rfl

/-- Witness for the amended C2 in the truncating case: six characters cut
to five keep the last two behind the dots. -/
theorem prepareConversationText_amended_witness :
    (prepareConversationText [['a', 'b', 'c', 'd', 'e', 'f']] 5 1).length = 5 ∧
    (prepareConversationText [['a', 'b', 'c', 'd', 'e', 'f']] 5 1).take 3 = "...".toList ∧
    (prepareConversationText [['a', 'b', 'c', 'd', 'e', 'f']] 5 1).drop 3 =
      (['a', 'b', 'c', 'd', 'e', 'f'] : Str).drop
        ((['a', 'b', 'c', 'd', 'e', 'f'] : Str).length - (5 - 3)) := by
  have h := prepareConversationText_amended [['a', 'b', 'c', 'd', 'e', 'f']] 5 1
    (by decide) ['a', 'b', 'c', 'd', 'e', 'f'] (by decide)
  exact h.2 (by decide) (by decide)

end SessionTitler
